import Mathlib

/-!
Verification of the reddit content-extraction engine (`cmd/server/extractor`).

The Go source is shallowly embedded: Go strings become Lean `String`
(character lists via `String.data`); the handful of `strings.*` standard
library functions the extractor uses are modelled on ASCII data, which is
the alphabet the extractor's inputs range over.  Network effects are
modelled by explicit oracle parameters describing the single upstream
response a call observes.
-/

set_option maxRecDepth 4096

/-- Model of `unicode.IsSpace` restricted to ASCII, as used by
`strings.TrimSpace`. -/
def isGoSpace (c : Char) : Bool :=
  c = ' ' || c = '\t' || c = '\n' || c = '\r' || c.toNat = 11 || c.toNat = 12

/-- Drop the characters satisfying `p` from both ends of a list. -/
def trimChars (p : Char → Bool) (l : List Char) : List Char :=
  List.rdropWhile p (l.dropWhile p)

/-- Model of Go `strings.TrimSpace`. -/
def stringsTrimSpace (s : String) : String :=
  String.mk (trimChars isGoSpace s.data)

/-- Model of Go `strings.Trim(s, "/")`. -/
def stringsTrimSlash (s : String) : String :=
  String.mk (trimChars (fun c => c == '/') s.data)

/-- Split a character list at every occurrence of `c`; mirrors Go
`strings.Split` (always returns at least one chunk, keeps empty chunks). -/
def splitOnChar (c : Char) : List Char → List (List Char)
  | [] => [[]]
  | x :: xs =>
    match splitOnChar c xs with
    | [] => [[]]
    | chunk :: rest => if x = c then [] :: chunk :: rest else (x :: chunk) :: rest

/-- Model of Go `strings.Split(s, sep)` for a one-character separator. -/
def stringsSplit (s : String) (c : Char) : List String :=
  (splitOnChar c s.data).map String.mk

/-- Model of Go `strings.HasPrefix`. -/
def strStartsWith (s pre : String) : Bool :=
  pre.data.isPrefixOf s.data

/-- Model of Go `strings.HasSuffix`. -/
def strEndsWith (s suf : String) : Bool :=
  suf.data.isSuffixOf s.data

/-- Does `l` contain `sub` as a contiguous sublist? -/
def containsSub (sub : List Char) : List Char → Bool
  | [] => sub.isEmpty
  | x :: rest => sub.isPrefixOf (x :: rest) || containsSub sub rest

/-- Model of Go `strings.Contains`. -/
def stringsContains (s sub : String) : Bool :=
  containsSub sub.data s.data

/-- Model of Go `strings.ToLower` (ASCII). -/
def stringsToLower (s : String) : String :=
  String.mk (s.data.map Char.toLower)

/-- Model of Go `strings.EqualFold` (ASCII simple case folding). -/
def stringsEqualFold (s t : String) : Bool :=
  s.data.map Char.toLower == t.data.map Char.toLower

/-- One left-to-right non-overlapping pass replacing `&amp;` by `&`;
character-list core of `strings.ReplaceAll(s, "&amp;", "&")`. -/
def replaceAmpChars : List Char → List Char
  | '&' :: 'a' :: 'm' :: 'p' :: ';' :: rest => '&' :: replaceAmpChars rest
  | ch :: rest => ch :: replaceAmpChars rest
  | [] => []

/-- Model of Go `strings.ReplaceAll(s, "&amp;", "&")`. -/
def replaceAmp (s : String) : String :=
  String.mk (replaceAmpChars s.data)

/-- `buildRedditPostLink` from `cmd/server/extractor` (subreddit listing
file): turn a permalink into an absolute post link, or the empty string
when the permalink is rejected. -/
def buildRedditPostLink (permalink : String) : String :=
  let permalink := stringsTrimSpace permalink
  if permalink = "" then ""
  -- If already a full URL, return as-is
  else if strStartsWith permalink "http://" || strStartsWith permalink "https://" then
    permalink
  -- Validate path format - must start with /r/
  else if !strStartsWith permalink "/r/" then ""
  -- Ensure no path traversal attempts
  else if stringsContains permalink ".." then ""
  else
    -- At least /r/subreddit plus one more segment must exist, the first
    -- segment must be "r" and the second (the subreddit name) non-empty
    match stringsSplit (stringsTrimSlash permalink) '/' with
    | seg0 :: seg1 :: _ :: _ =>
      if seg0 ≠ "r" then ""
      else if seg1 = "" then ""
      else "https://www.reddit.com" ++ permalink
    | _ => ""

/-- Parsed URL parts used by the extractor: `Scheme`, `Host` (with port,
userinfo not modelled) and `Path`, as produced by `net/url`. -/
structure GoURL where
  scheme : String
  host : String
  path : String
deriving Repr, DecidableEq

/-- Core of `net/url` `getScheme`: returns `(scheme, rest)`, the scheme
lower-cased; `none` models the "missing protocol scheme" error. -/
def getSchemeAux (orig : List Char) (seen : List Char) : List Char → Option (List Char × List Char)
  | [] => some ([], orig)
  | c :: rest =>
    if c.isAlpha then getSchemeAux orig (seen ++ [c]) rest
    else if c.isDigit || c = '+' || c = '-' || c = '.' then
      if seen = [] then some ([], orig) else getSchemeAux orig (seen ++ [c]) rest
    else if c = ':' then
      if seen = [] then none else some (seen.map Char.toLower, rest)
    else some ([], orig)

/-- Model of `net/url` `getScheme`. -/
def getScheme (l : List Char) : Option (List Char × List Char) :=
  getSchemeAux l [] l

/-- Keep the part of the list before the first occurrence of `c`
(`strings.Cut` keeping the left half). -/
def takeUntilChar (c : Char) (l : List Char) : List Char :=
  l.takeWhile (fun x => x ≠ c)

/-- Core of `net/url` `parse` for the inputs the extractor handles (no
userinfo, IPv6 literals or percent escapes): split off the query, then the
`//authority` when present.  `viaRequest = true` is `ParseRequestURI`,
which rejects scheme-less relative references. -/
def goParseCore (viaRequest : Bool) (raw : List Char) : Option GoURL :=
  match getScheme raw with
  | none => none
  | some (sch, rest) =>
    let rest := takeUntilChar '?' rest
    if !(['/'].isPrefixOf rest) then
      if sch ≠ [] then some ⟨String.mk sch, "", ""⟩   -- opaque URL, Host empty
      else if viaRequest then none                    -- invalid URI for request
      else if (rest.takeWhile (fun x => x ≠ '/')).contains ':' then none
      else some ⟨"", "", String.mk rest⟩
    else if ['/', '/'].isPrefixOf rest then
      let afterSlashes := rest.drop 2
      some ⟨String.mk sch, String.mk (afterSlashes.takeWhile (fun x => x ≠ '/')),
            String.mk (afterSlashes.dropWhile (fun x => x ≠ '/'))⟩
    else some ⟨String.mk sch, "", String.mk rest⟩

/-- Model of `net/url.ParseRequestURI`. -/
def goParseRequestURI (raw : String) : Option GoURL :=
  goParseCore true raw.data

/-- Model of `net/url.Parse` (fragment split off first). -/
def goParse (raw : String) : Option GoURL :=
  goParseCore false (takeUntilChar '#' raw.data)

/-- The extractor's two error kinds: `validation` embeds the exported
`ValidationError` struct, `basic` any plain `error` value (`fmt.Errorf`,
transport failures, status errors), identified by its message. -/
inductive GoError where
  | validation (msg : String)
  | basic (msg : String)
deriving Repr, DecidableEq

deriving instance DecidableEq for Except

/-- The scan in `parseSubredditURL`: first path segment equal to `"r"`
followed by a non-empty segment wins. -/
def findSubredditName : List String → Option String
  | seg0 :: seg1 :: rest =>
    if seg0 = "r" && seg1 ≠ "" then some seg1 else findSubredditName (seg1 :: rest)
  | _ => none

/-- `parseSubredditURL`: extract the subreddit name from a listing URL, or
an error message. -/
def parseSubredditURL (rawURL : String) : Except String String :=
  if stringsTrimSpace rawURL = "" then .error "url is required"
  else match goParseRequestURI rawURL with
    | none => .error "invalid url"
    | some parsed =>
      if parsed.scheme = "" || parsed.host = "" then .error "invalid url"
      else
        match findSubredditName (stringsSplit (stringsTrimSlash parsed.path) '/') with
        | some name => .ok name
        | none => .error "invalid subreddit url"

/-- `ValidateSubredditURL`: wrap any `parseSubredditURL` failure in a
`ValidationError`. -/
def ValidateSubredditURL (rawURL : String) : Option GoError :=
  match parseSubredditURL rawURL with
  | .error msg => some (.validation msg)
  | .ok _ => none

/-- `ValidateRedditURL` (post path): note the errors are plain
`fmt.Errorf` values, not `ValidationError`. -/
def ValidateRedditURL (rawURL : String) : Option GoError :=
  if stringsTrimSpace rawURL = "" then some (.basic "url is required")
  else match goParseRequestURI rawURL with
    | none => some (.basic "invalid url")
    | some parsed =>
      if parsed.scheme = "" || parsed.host = "" then some (.basic "invalid url")
      else none

/-- `normalizeSubredditSort`: lower-case and trim, then keep only the
fixed enumeration (empty meaning "use the default"). -/
def normalizeSubredditSort (sort : String) : String :=
  let sort := stringsToLower (stringsTrimSpace sort)
  if sort = "" || sort = "hot" || sort = "new" || sort = "top" || sort = "rising" then sort
  else ""

/-- `isValidTimeRange`: case-insensitive, whitespace-trimmed membership in
the fixed time-range enumeration. -/
def isValidTimeRange (timeRange : String) : Bool :=
  let t := stringsToLower (stringsTrimSpace timeRange)
  t = "day" || t = "week" || t = "month" || t = "year" || t = "all"

/-- `isRemovedPost`: removal marker (trimmed) non-empty, or title/selftext
lower-cased and trimmed equal to the deleted/removed sentinels. -/
def isRemovedPost (title selftext removedCategory : String) : Bool :=
  let removedCategory := stringsTrimSpace removedCategory
  if removedCategory ≠ "" then true
  else
    let title := stringsTrimSpace (stringsToLower title)
    let selftext := stringsTrimSpace (stringsToLower selftext)
    if title = "[deleted]" || title = "[removed]" then true
    else if selftext = "[deleted]" || selftext = "[removed]" then true
    else false

/-- `isRedditImageURL`: direct image-host detection. -/
def isRedditImageURL (url : String) : Bool :=
  stringsContains url "preview.redd.it" || stringsContains url "i.redd.it"

/-- `isExternalLinkURL`: non-empty, parseable with a host, and the host is
neither the canonical domain nor a first-party media subdomain. -/
def isExternalLinkURL (rawURL : String) : Bool :=
  if stringsTrimSpace rawURL = "" then false
  else match goParse rawURL with
    | none => false
    | some parsed =>
      if parsed.host = "" then false
      else
        let host := stringsToLower parsed.host
        if strEndsWith host "reddit.com" || strEndsWith host "redd.it" then false
        else if strEndsWith host "i.redd.it" || strEndsWith host "preview.redd.it" ||
            strEndsWith host "v.redd.it" then false
        else true

/-- One `media_metadata` entry (`status`, `e`, `m`, `s.u`). -/
structure MediaMeta where
  status : String
  e : String
  m : String
  u : String
deriving Repr, DecidableEq

/-- One `preview.images` entry (its `source.url`). -/
structure PreviewImage where
  sourceURL : String
deriving Repr, DecidableEq

/-- `redditListingPostData`: the decoded fields of one listing child.  The
Go `media_metadata` map is modelled as an association list (`none` for a
nil map); Go iterates it in unspecified order, the model in list order,
which the verified properties do not depend on. -/
structure RedditListingPostData where
  title : String
  author : String
  score : Int
  numComments : Int
  selftext : String
  permalink : String
  url : String
  isSelf : Bool
  postHint : String
  isGallery : Bool
  isVideo : Bool
  removedByCategory : String
  preview : List PreviewImage
  mediaMetadata : Option (List (String × MediaMeta))
deriving Repr, DecidableEq

/-- One child of the listing envelope. -/
structure RedditListingChild where
  kind : String
  data : RedditListingPostData
deriving Repr, DecidableEq

/-- The decoded listing envelope (`data.after`, `data.children`). -/
structure RedditListingResponse where
  after : String
  children : List RedditListingChild
deriving Repr, DecidableEq

/-- `SubredditPost`: one produced listing post. -/
structure SubredditPost where
  title : String
  imageURLs : List String
  postLink : String
  score : Int
  comments : Int
  externalLink : String
deriving Repr, DecidableEq

/-- `SubredditListResponse`: the produced listing response. -/
structure SubredditListResponse where
  posts : List SubredditPost
  nextAfter : String
  hasMore : Bool
deriving Repr, DecidableEq

/-- The gallery walk inside `collectPostImages`: entries with status
"valid", type "Image" (case-folded) and a non-empty URL, ampersand
entity decoded. -/
def galleryImages (mm : List (String × MediaMeta)) : List String :=
  mm.filterMap fun entry =>
    if entry.2.status = "valid" && stringsEqualFold entry.2.e "Image" && entry.2.u ≠ "" then
      some (replaceAmp entry.2.u)
    else none

/-- `collectPostImages`: image resolution by priority — video: none;
gallery media; direct image-host or image-hinted URL; preview list. -/
def collectPostImages (data : RedditListingPostData) : List String :=
  if data.isVideo then []
  else
    let images : List String :=
      match data.mediaMetadata with
      | some mm => if data.isGallery then galleryImages mm else []
      | none => []
    if images ≠ [] then images
    else
      let images : List String :=
        if (data.postHint = "image" || isRedditImageURL data.url) &&
            stringsTrimSpace data.url ≠ "" then [data.url]
        else []
      if images = [] && data.preview ≠ [] then
        data.preview.filterMap fun img =>
          if img.sourceURL = "" then none else some (replaceAmp img.sourceURL)
      else images

/-- Build one produced post from decoded child data and its computed
post link. -/
def listingPostOf (data : RedditListingPostData) (postLink : String) : SubredditPost :=
  { title := data.title
    imageURLs := collectPostImages data
    postLink := postLink
    score := data.score
    comments := data.numComments
    externalLink := if isExternalLinkURL data.url then data.url else "" }

/-- The per-entry loop of `ExtractSubredditPosts`: skip non-"t3" children,
drop removed posts and posts with an invalid permalink, keep the rest in
order. -/
def processListingChildren : List RedditListingChild → List SubredditPost
  | [] => []
  | child :: rest =>
    if child.kind ≠ "t3" then processListingChildren rest
    else if isRemovedPost child.data.title child.data.selftext child.data.removedByCategory then
      processListingChildren rest
    else
      let postLink := buildRedditPostLink child.data.permalink
      if postLink = "" then processListingChildren rest
      else listingPostOf child.data postLink :: processListingChildren rest

/-- Insertion sort by key, modelling the sorted key order of
`url.Values.Encode`. -/
def insertParam (p : String × String) : List (String × String) → List (String × String)
  | [] => [p]
  | q :: rest => if p.1 ≤ q.1 then p :: q :: rest else q :: insertParam p rest

/-- Sort query parameters by key. -/
def sortParams : List (String × String) → List (String × String)
  | [] => []
  | p :: rest => insertParam p (sortParams rest)

/-- Join encoded `key=value` pairs with `&`. -/
def joinParams : List (String × String) → String
  | [] => ""
  | [p] => p.1 ++ "=" ++ p.2
  | p :: q :: rest => p.1 ++ "=" ++ p.2 ++ "&" ++ joinParams (q :: rest)

/-- Model of `url.Values.Encode` for the parameters the extractor sets
(keys sorted; percent-escaping is the identity on the alphanumeric sort,
limit and cursor tokens used and is not modelled). -/
def queryEncode (params : List (String × String)) : String :=
  joinParams (sortParams params)

/-- The listing request URL built by `ExtractSubredditPosts` (lines
building `apiURL` and `query`). -/
def buildListingRequestURL (subreddit normalizedSort : String) (limit : Int)
    (timeRange after : String) : String :=
  let base := "https://www.reddit.com/r/" ++ subreddit ++ "/" ++ normalizedSort ++ ".json"
  let params := [("limit", toString limit)]
  let params := if after ≠ "" then params ++ [("after", after)] else params
  let params := if normalizedSort = "top" && timeRange ≠ "" then params ++ [("t", timeRange)] else params
  base ++ "?" ++ queryEncode params

/-- Outcome of the (single) HTTP body read and JSON decode for the
listing fetch. -/
inductive ListingBody where
  | bodyErr (msg : String)
  | decoded (listing : RedditListingResponse)
deriving Repr, DecidableEq

/-- Outcome of the listing HTTP round trip: transport failure (also
covering request-creation failure), or a response with a status code,
status text and body. -/
inductive ListingFetch where
  | doErr (msg : String)
  | httpResp (status : Nat) (statusText : String) (body : ListingBody)
deriving Repr, DecidableEq

/-- `ExtractSubredditPosts`: validate inputs, build the request URL, fetch
(`net` maps the request URL to the observed outcome), handle unavailable
subreddits, decode, filter and assemble the response. -/
def ExtractSubredditPosts (subredditURL sort timeRange : String) (limit : Int)
    (after : String) (net : String → ListingFetch) :
    Except GoError SubredditListResponse :=
  match parseSubredditURL subredditURL with
  | .error msg => .error (.validation msg)
  | .ok subreddit =>
    let normalizedSort := normalizeSubredditSort sort
    if stringsTrimSpace sort ≠ "" && normalizedSort = "" then .error (.validation "invalid sort")
    else
      let normalizedSort := if normalizedSort = "" then "hot" else normalizedSort
      let limit := if limit = 0 then 20 else limit
      if limit < 1 || limit > 100 then
        .error (.validation "limit must be between 1 and 100")
      else if timeRange ≠ "" && normalizedSort = "top" && !isValidTimeRange timeRange then
        .error (.validation "invalid time_range")
      else
        match net (buildListingRequestURL subreddit normalizedSort limit timeRange after) with
        | .doErr msg => .error (.basic msg)
        | .httpResp status statusText body =>
          if status ≠ 200 then
            if status = 403 || status = 404 || status = 410 then
              .ok { posts := [], nextAfter := "", hasMore := false }
            else .error (.basic ("unexpected status: " ++ statusText))
          else
            match body with
            | .bodyErr msg => .error (.basic msg)
            | .decoded listing =>
              let posts := processListingChildren listing.children
              let nextAfter := stringsTrimSpace listing.after
              .ok { posts := posts, nextAfter := nextAfter, hasMore := nextAfter ≠ "" }

/-- Attempt of the `redditURLRE` pattern
`/r/([^/]+)/comments/([a-z0-9]+)/` anchored at the head of `l`; both
character classes cannot cross their following literal `/`, so the
regexp's behaviour at a fixed start is this deterministic scan. -/
def matchRedditAt (l : List Char) : Option (List Char × List Char) :=
  if "/r/".data.isPrefixOf l then
    let l1 := l.drop 3
    let name := l1.takeWhile (fun c => c ≠ '/')
    if name = [] then none
    else
      let l2 := l1.drop name.length
      if "/comments/".data.isPrefixOf l2 then
        let l3 := l2.drop 10
        let pid := l3.takeWhile (fun c => c.isLower || c.isDigit)
        if pid = [] then none
        else
          match l3.drop pid.length with
          | '/' :: _ => some (name, pid)
          | _ => none
      else none
  else none

/-- Leftmost occurrence of the `redditURLRE` pattern
(`FindStringSubmatch`): try every start from the left. -/
def findRedditPattern : List Char → Option (List Char × List Char)
  | [] => none
  | x :: rest =>
    match matchRedditAt (x :: rest) with
    | some r => some r
    | none => findRedditPattern rest

/-- `parseRedditURL`: subreddit name and post id from a post URL, `none`
when the pattern does not match. -/
def parseRedditURL (redditURL : String) : Option (String × String) :=
  (findRedditPattern redditURL.data).map fun p => (String.mk p.1, String.mk p.2)

/-- `Comment`: body plus nested replies (recursive). -/
inductive Comment where
  | mk (body : String) (replies : List Comment)
deriving Repr

/-- Body of a comment. -/
def Comment.body : Comment → String
  | .mk b _ => b

/-- Replies of a comment. -/
def Comment.replies : Comment → List Comment
  | .mk _ r => r

/-- `RedditPost`: the post-detail result record. -/
structure RedditPost where
  title : String
  author : String
  publishedTime : String
  score : String
  commentCount : String
  content : String
  images : List String
  comments : List Comment
deriving Repr

/-- Outcome of the API strategy's fetch-and-decode phase (the part after
`parseRedditURL` succeeds).  `decoded post` abstracts a 200 response whose
body decoded, carrying the post assembled by the two decode passes (the
comment pass is `parseCommentListings`, verified separately). -/
inductive APIBody where
  | bodyErr (msg : String)
  | decoded (post : RedditPost)

/-- Outcome of the API strategy's HTTP round trip. -/
inductive APIFetch where
  | doErr (msg : String)
  | httpResp (status : Nat) (statusText : String) (body : APIBody)

/-- `extractRedditPostFromAPI`: reject URLs without the post pattern, then
map the fetch outcome; every error is a plain error value. -/
def extractRedditPostFromAPI (redditURL : String) (fetch : APIFetch) :
    Except GoError RedditPost :=
  match parseRedditURL redditURL with
  | none => .error (.basic "invalid reddit post url")
  | some _ =>
    match fetch with
    | .doErr msg => .error (.basic msg)
    | .httpResp status statusText body =>
      if status ≠ 200 then .error (.basic ("unexpected status: " ++ statusText))
      else
        match body with
        | .bodyErr msg => .error (.basic msg)
        | .decoded post => .ok post

/-- Outcome of the markup-scraping strategy: the page visit fails, the
caller's context is cancelled, or a (possibly all-empty) scraped post. -/
inductive HTMLFetch where
  | visitErr (msg : String)
  | ctxCancelled (msg : String)
  | scraped (post : RedditPost)

/-- `extractRedditPostFromHTML` at its effect boundary: selector results
are abstracted into the scraped post. -/
def extractRedditPostFromHTML (fetch : HTMLFetch) : Except GoError RedditPost :=
  match fetch with
  | .visitErr msg => .error (.basic msg)
  | .ctxCancelled msg => .error (.basic msg)
  | .scraped post => .ok post

/-- `ExtractRedditPost`: validate, try the API strategy, fall back to the
markup strategy when it errors or yields an empty title.  The second
component records whether the markup strategy was invoked. -/
def ExtractRedditPost (redditURL : String) (api : APIFetch) (html : HTMLFetch) :
    Except GoError RedditPost × Bool :=
  match ValidateRedditURL redditURL with
  | some e => (.error e, false)
  | none =>
    match extractRedditPostFromAPI redditURL api with
    | .error _ =>
      (match extractRedditPostFromHTML html with
       | .error e => (.error e, true)
       | .ok post => (.ok post, true))
    | .ok post =>
      if post.title = "" then
        (match extractRedditPostFromHTML html with
         | .error e => (.error e, true)
         | .ok fallbackPost => (.ok fallbackPost, true))
      else (.ok post, false)

/-- JSON values, modelling the raw payload (`json.RawMessage`) the comment
pass re-decodes.  Objects are association lists; field names are taken
verbatim (the upstream API emits the lower-case tag names the Go structs
declare). -/
inductive JVal where
  | null
  | bool (b : Bool)
  | num (n : Int)
  | str (s : String)
  | arr (elems : List JVal)
  | obj (fields : List (String × JVal))
deriving Repr

/-- Field lookup in a decoded object; `encoding/json` lets the last
occurrence of a duplicated key win. -/
def jLookup (fields : List (String × JVal)) (key : String) : Option JVal :=
  match fields with
  | [] => none
  | (k, v) :: rest =>
    match jLookup rest key with
    | some w => some w
    | none => if k = key then some v else none

/-- `encoding/json` unmarshalling of a value into a Go `string` field:
strings are taken, `null` leaves the zero value, anything else errors. -/
def decodeStringField : JVal → Option String
  | .str s => some s
  | .null => some ""
  | _ => none

/-- The fields `parseCommentListings` decodes from one raw child:
`Kind string`, `Data.Body string`, `Data.Replies json.RawMessage`. -/
structure CommentNode where
  kind : String
  body : String
  replies : Option JVal
deriving Repr

/-- `json.Unmarshal` of one raw child into the comment-node struct;
`none` models a decode error (the child is then dropped). -/
def decodeCommentNode : JVal → Option CommentNode
  | .null => some ⟨"", "", none⟩
  | .obj fields =>
    match (match jLookup fields "kind" with
           | none => some ""
           | some v => decodeStringField v) with
    | none => none
    | some kind =>
      match jLookup fields "data" with
      | none => some ⟨kind, "", none⟩
      | some .null => some ⟨kind, "", none⟩
      | some (.obj dataFields) =>
        match (match jLookup dataFields "body" with
               | none => some ""
               | some v => decodeStringField v) with
        | none => none
        | some body => some ⟨kind, body, jLookup dataFields "replies"⟩
      | some _ => none
  | _ => none

/-- The fields the replies pass decodes from a raw replies value:
`Kind string`, `Data.Children []json.RawMessage`. -/
structure ListingNode where
  kind : String
  children : List JVal
deriving Repr

/-- `json.Unmarshal` of a raw replies value into the listing struct. -/
def decodeListing : JVal → Option ListingNode
  | .null => some ⟨"", []⟩
  | .obj fields =>
    match (match jLookup fields "kind" with
           | none => some ""
           | some v => decodeStringField v) with
    | none => none
    | some kind =>
      match jLookup fields "data" with
      | none => some ⟨kind, []⟩
      | some .null => some ⟨kind, []⟩
      | some (.obj dataFields) =>
        match jLookup dataFields "children" with
        | none => some ⟨kind, []⟩
        | some .null => some ⟨kind, []⟩
        | some (.arr elems) => some ⟨kind, elems⟩
        | some _ => none
      | some _ => none
  | _ => none

theorem jLookup_sizeOf_lt (fields : List (String × JVal)) (key : String) (v : JVal)
    (h : jLookup fields key = some v) : sizeOf v < sizeOf fields := by
  induction fields with
  | nil => simp [jLookup] at h
  | cons kv rest ih =>
    obtain ⟨k, w⟩ := kv
    simp only [jLookup] at h
    split at h
    · rename_i u hu
      obtain rfl : u = v := by injection h
      have := ih hu
      simp only [List.cons.sizeOf_spec]
      omega
    · split at h
      · obtain rfl : w = v := by injection h
        simp only [List.cons.sizeOf_spec, Prod.mk.sizeOf_spec]
        omega
      · simp at h

theorem decodeCommentNode_replies_sizeOf_lt (j : JVal) (node : CommentNode) (rv : JVal)
    (h : decodeCommentNode j = some node) (h2 : node.replies = some rv) :
    sizeOf rv < sizeOf j := by
  cases j with
  | obj fields =>
    simp only [decodeCommentNode] at h
    cases hkind : (match jLookup fields "kind" with
                   | none => some ""
                   | some v => decodeStringField v) with
    | none => rw [hkind] at h; simp at h
    | some kind =>
      rw [hkind] at h
      simp only at h
      cases hdata : jLookup fields "data" with
      | none =>
        rw [hdata] at h
        simp only at h
        obtain rfl : CommentNode.mk kind "" none = node := by injection h
        simp at h2
      | some dv =>
        rw [hdata] at h
        cases dv with
        | null =>
          simp only at h
          obtain rfl : CommentNode.mk kind "" none = node := by injection h
          simp at h2
        | obj dataFields =>
          simp only at h
          cases hbody : (match jLookup dataFields "body" with
                         | none => some ""
                         | some v => decodeStringField v) with
          | none => rw [hbody] at h; simp at h
          | some body =>
            rw [hbody] at h
            simp only at h
            obtain rfl : CommentNode.mk kind body (jLookup dataFields "replies") = node := by
              injection h
            simp only at h2
            have hlt := jLookup_sizeOf_lt dataFields "replies" rv h2
            have hlt2 := jLookup_sizeOf_lt fields "data" (.obj dataFields) hdata
            simp only [JVal.obj.sizeOf_spec] at hlt2 ⊢
            omega
        | bool b => simp at h
        | num n => simp at h
        | str s => simp at h
        | arr elems => simp at h
  | null =>
    simp only [decodeCommentNode] at h
    obtain rfl : CommentNode.mk "" "" none = node := by injection h
    simp at h2
  | bool b => simp [decodeCommentNode] at h
  | num n => simp [decodeCommentNode] at h
  | str s => simp [decodeCommentNode] at h
  | arr elems => simp [decodeCommentNode] at h

theorem decodeListing_children_sizeOf_lt (j : JVal) (listing : ListingNode)
    (h : decodeListing j = some listing) (hne : listing.children ≠ []) :
    sizeOf listing.children < sizeOf j := by
  cases j with
  | obj fields =>
    simp only [decodeListing] at h
    cases hkind : (match jLookup fields "kind" with
                   | none => some ""
                   | some v => decodeStringField v) with
    | none => rw [hkind] at h; simp at h
    | some kind =>
      rw [hkind] at h
      simp only at h
      cases hdata : jLookup fields "data" with
      | none =>
        rw [hdata] at h
        simp only at h
        obtain rfl : ListingNode.mk kind [] = listing := by injection h
        simp at hne
      | some dv =>
        rw [hdata] at h
        cases dv with
        | null =>
          simp only at h
          obtain rfl : ListingNode.mk kind [] = listing := by injection h
          simp at hne
        | obj dataFields =>
          simp only at h
          cases hch : jLookup dataFields "children" with
          | none =>
            rw [hch] at h
            simp only at h
            obtain rfl : ListingNode.mk kind [] = listing := by injection h
            simp at hne
          | some cv =>
            rw [hch] at h
            cases cv with
            | null =>
              simp only at h
              obtain rfl : ListingNode.mk kind [] = listing := by injection h
              simp at hne
            | arr elems =>
              simp only at h
              obtain rfl : ListingNode.mk kind elems = listing := by injection h
              have hlt := jLookup_sizeOf_lt dataFields "children" (.arr elems) hch
              have hlt2 := jLookup_sizeOf_lt fields "data" (.obj dataFields) hdata
              simp only [JVal.obj.sizeOf_spec, JVal.arr.sizeOf_spec] at hlt hlt2 ⊢
              omega
            | bool b => simp at h
            | num n => simp at h
            | str s => simp at h
            | obj f2 => simp at h
        | bool b => simp at h
        | num n => simp at h
        | str s => simp at h
        | arr elems => simp at h
  | null =>
    simp only [decodeListing] at h
    obtain rfl : ListingNode.mk "" [] = listing := by injection h
    simp at hne
  | bool b => simp [decodeListing] at h
  | num n => simp [decodeListing] at h
  | str s => simp [decodeListing] at h
  | arr elems => simp [decodeListing] at h

theorem jval_sizeOf_pos (j : JVal) : 1 ≤ sizeOf j := by
  cases j <;> simp_arith

mutual

def parseCommentListings : List JVal → List Comment
  | [] => []
  | childRaw :: rest =>
    match hdec : decodeCommentNode childRaw with
    | none => parseCommentListings rest
    | some node =>
      if node.kind ≠ "t1" then parseCommentListings rest
      else Comment.mk node.body (parseReplies node.replies) :: parseCommentListings rest
termination_by l => sizeOf l
decreasing_by
  all_goals simp only [List.cons.sizeOf_spec]
  · omega
  · omega
  · cases hrep : node.replies with
    | none =>
      have := jval_sizeOf_pos childRaw
      simp only [hrep, Option.none.sizeOf_spec]
      omega
    | some rv =>
      have := decodeCommentNode_replies_sizeOf_lt childRaw node rv hdec hrep
      simp only [hrep, Option.some.sizeOf_spec]
      omega
  · omega

def parseReplies : Option JVal → List Comment
  | none => []
  | some (.str "") => []
  | some rv =>
    match hlst : decodeListing rv with
    | none => []
    | some listing =>
      if listing.kind = "Listing" then
        match hch : listing.children with
        | [] => []
        | c :: cs => parseCommentListings (c :: cs)
      else []
termination_by o => sizeOf o
decreasing_by
  have := decodeListing_children_sizeOf_lt rv listing hlst (by simp [hch])
  rw [hch] at this
  simp only [Option.some.sizeOf_spec]
  omega

end

example : parseRedditURL "https://www.reddit.com/r/golang/comments/abc123/title/" =
    some ("golang", "abc123") := by decide
example : parseRedditURL "https://example.com/x" = none := by decide
example : parseRedditURL "https://www.reddit.com/r/golang/" = none := by decide

example : parseSubredditURL "https://www.reddit.com/r/golang/" = .ok "golang" := by decide
example : parseSubredditURL "https://www.reddit.com/r/golang" = .ok "golang" := by decide
example : parseSubredditURL "http://www.reddit.com/r/golang/" = .ok "golang" := by decide
example : parseSubredditURL "" = .error "url is required" := by decide
example : parseSubredditURL "not-a-url" = .error "invalid url" := by decide
example : parseSubredditURL "https://www.reddit.com/user/test" = .error "invalid subreddit url" := by decide
example : parseSubredditURL "https://www.reddit.com/golang/" = .error "invalid subreddit url" := by decide
example : parseSubredditURL "https://www.reddit.com/r//" = .error "invalid subreddit url" := by decide
example : ValidateRedditURL "https://example.com" = none := by decide

example : buildRedditPostLink "/r/golang/comments/abc123/test_post/" =
    "https://www.reddit.com/r/golang/comments/abc123/test_post/" := by decide
example : buildRedditPostLink "https://www.reddit.com/r/golang/comments/abc123/" =
    "https://www.reddit.com/r/golang/comments/abc123/" := by decide
example : buildRedditPostLink "" = "" := by decide
example : buildRedditPostLink "/r/golang/../../etc/passwd" = "" := by decide
example : buildRedditPostLink "/golang/comments/abc123/" = "" := by decide
example : buildRedditPostLink "/r/" = "" := by decide
example : buildRedditPostLink "   " = "" := by decide

/-! ## Claim theorems -/

/-- An all-empty `RedditPost`, the zero value `&RedditPost{}`. -/
def emptyRedditPost : RedditPost :=
  { title := "", author := "", publishedTime := "", score := "", commentCount := "",
    content := "", images := [], comments := [] }

/-- A `RedditPost` with only a title, used to instantiate oracles. -/
def titledRedditPost (t : String) : RedditPost :=
  { emptyRedditPost with title := t }

/-- Claim C3: for a URL passing validation, `ExtractRedditPost` attempts
the structured-API strategy first and invokes the markup-scraping strategy
if and only if the API attempt returns an error or a post with an empty
title (a nil post with a nil error cannot occur); whenever the API
strategy yields a post with a non-empty title, that post is returned and
the markup strategy is never invoked. -/
theorem extractRedditPost_strategy_chain (url : String) (api : APIFetch) (html : HTMLFetch)
    (hvalid : ValidateRedditURL url = none) :
    ((ExtractRedditPost url api html).2 = true ↔
      (∃ e, extractRedditPostFromAPI url api = .error e) ∨
      (∃ p, extractRedditPostFromAPI url api = .ok p ∧ p.title = "")) ∧
    (∀ p, extractRedditPostFromAPI url api = .ok p → p.title ≠ "" →
      ExtractRedditPost url api html = (.ok p, false)) := by
  cases hapi : extractRedditPostFromAPI url api with
  | error e =>
    have hres : ExtractRedditPost url api html =
        (match extractRedditPostFromHTML html with
         | .error e2 => (.error e2, true)
         | .ok p2 => (.ok p2, true)) := by
      unfold ExtractRedditPost
      rw [hvalid, hapi]
    refine ⟨⟨fun _ => .inl ⟨e, rfl⟩, fun _ => ?_⟩, ?_⟩
    · rw [hres]
      cases extractRedditPostFromHTML html <;> rfl
    · intro p hp
      exact absurd hp (by simp)
  | ok post =>
    by_cases ht : post.title = ""
    · have hres : ExtractRedditPost url api html =
          (match extractRedditPostFromHTML html with
           | .error e2 => (.error e2, true)
           | .ok p2 => (.ok p2, true)) := by
        unfold ExtractRedditPost
        rw [hvalid, hapi]
        simp [ht]
      refine ⟨⟨fun _ => .inr ⟨post, rfl, ht⟩, fun _ => ?_⟩, ?_⟩
      · rw [hres]
        cases extractRedditPostFromHTML html <;> rfl
      · intro p hp hne
        obtain rfl : post = p := by simpa using hp
        exact absurd ht hne
    · have hres : ExtractRedditPost url api html = (.ok post, false) := by
        unfold ExtractRedditPost
        rw [hvalid, hapi]
        simp [ht]
      refine ⟨⟨fun htrue => ?_, fun hor => ?_⟩, ?_⟩
      · rw [hres] at htrue
        simp at htrue
      · rcases hor with ⟨e2, he2⟩ | ⟨p2, hp2, ht2⟩
        · exact absurd he2 (by simp)
        · obtain rfl : post = p2 := by simpa using hp2
          exact absurd ht2 ht
      · intro p hp hne
        obtain rfl : post = p := by simpa using hp
        rw [hres]

/-- Witness for C3 at a concrete valid post URL whose API strategy
succeeds with a non-empty title. -/
theorem extractRedditPost_strategy_chain_witness :
    ExtractRedditPost "https://www.reddit.com/r/golang/comments/abc123/post/"
      (.httpResp 200 "200 OK" (.decoded (titledRedditPost "T")))
      (.scraped emptyRedditPost) = (.ok (titledRedditPost "T"), false) :=
  (extractRedditPost_strategy_chain _ _ _ (by decide)).2 _ rfl (by decide)

/-- Claim C4: every `ListingResponse` produced by `ExtractSubredditPosts`
(including the empty response for an unavailable forum) satisfies
`HasMore = true` iff `NextAfter` is non-empty, and when the fetch yields a
decoded listing, `NextAfter` is the listing's trailing pagination token
trimmed of surrounding whitespace. -/
theorem extractSubredditPosts_hasMore_iff :
    (∀ subredditURL sort timeRange limit after net resp,
      ExtractSubredditPosts subredditURL sort timeRange limit after net = .ok resp →
      (resp.hasMore = true ↔ resp.nextAfter ≠ "")) ∧
    (∀ subredditURL sort timeRange limit after statusText listing resp,
      ExtractSubredditPosts subredditURL sort timeRange limit after
        (fun _ => .httpResp 200 statusText (.decoded listing)) = .ok resp →
      resp.nextAfter = stringsTrimSpace listing.after) := by
  constructor
  · intro subredditURL sort timeRange limit after net resp h
    simp only [ExtractSubredditPosts] at h
    iterate 12 (all_goals try split at h)
    all_goals try exact Except.noConfusion h
    all_goals (injection h with h2; subst h2; simp [decide_eq_true_iff])
  · intro subredditURL sort timeRange limit after statusText listing resp h
    simp only [ExtractSubredditPosts] at h
    iterate 12 (all_goals try split at h)
    all_goals try exact Except.noConfusion h
    all_goals try (exfalso; omega)
    all_goals (injection h with h2; subst h2; rfl)

/-- Witness for C4 at a concrete subreddit and a decoded listing whose
pagination token carries surrounding whitespace. -/
theorem extractSubredditPosts_hasMore_iff_witness :
    ((SubredditListResponse.mk [] "t3_x" true).hasMore = true ↔
      (SubredditListResponse.mk [] "t3_x" true).nextAfter ≠ "") ∧
    (SubredditListResponse.mk [] "t3_x" true).nextAfter =
      stringsTrimSpace (RedditListingResponse.mk " t3_x " []).after :=
  ⟨extractSubredditPosts_hasMore_iff.1 "https://www.reddit.com/r/golang/" "" "" 0 ""
      (fun _ => .httpResp 200 "200 OK" (.decoded (RedditListingResponse.mk " t3_x " [])))
      (SubredditListResponse.mk [] "t3_x" true) rfl,
    extractSubredditPosts_hasMore_iff.2 "https://www.reddit.com/r/golang/" "" "" 0 "" "200 OK"
      (RedditListingResponse.mk " t3_x " [])
      (SubredditListResponse.mk [] "t3_x" true) rfl⟩

/-- The sort actually used after default substitution. -/
def resolvedSort (sort : String) : String :=
  if normalizeSubredditSort sort = "" then "hot" else normalizeSubredditSort sort

/-- The limit actually used after default substitution. -/
def resolvedLimit (limit : Int) : Int :=
  if limit = 0 then 20 else limit

/-- All three parameter validations of `ExtractSubredditPosts` pass. -/
def listingValidationOK (sort timeRange : String) (limit : Int) : Prop :=
  ¬(stringsTrimSpace sort ≠ "" ∧ normalizeSubredditSort sort = "") ∧
  1 ≤ resolvedLimit limit ∧ resolvedLimit limit ≤ 100 ∧
  ¬(timeRange ≠ "" ∧ resolvedSort sort = "top" ∧ isValidTimeRange timeRange = false)

instance (sort timeRange : String) (limit : Int) :
    Decidable (listingValidationOK sort timeRange limit) := by
  unfold listingValidationOK
  infer_instance

/-- The post-validation tail of `ExtractSubredditPosts` as a function of
the observed fetch outcome. -/
def listingFetchResult : ListingFetch → Except GoError SubredditListResponse
  | .doErr msg => .error (.basic msg)
  | .httpResp status statusText body =>
    if status ≠ 200 then
      if status = 403 || status = 404 || status = 410 then
        .ok { posts := [], nextAfter := "", hasMore := false }
      else .error (.basic ("unexpected status: " ++ statusText))
    else
      match body with
      | .bodyErr msg => .error (.basic msg)
      | .decoded listing =>
        .ok { posts := processListingChildren listing.children,
              nextAfter := stringsTrimSpace listing.after,
              hasMore := stringsTrimSpace listing.after ≠ "" }

theorem extractSubredditPosts_eval (subredditURL sort timeRange : String) (limit : Int)
    (after sub : String) (net : String → ListingFetch)
    (hurl : parseSubredditURL subredditURL = .ok sub)
    (hok : listingValidationOK sort timeRange limit) :
    ExtractSubredditPosts subredditURL sort timeRange limit after net =
      listingFetchResult
        (net (buildListingRequestURL sub (resolvedSort sort) (resolvedLimit limit)
          timeRange after)) := by
  simp only [listingValidationOK, resolvedSort, resolvedLimit] at hok
  obtain ⟨hsort, hlo, hhi, htr⟩ := hok
  simp only [ExtractSubredditPosts, hurl, resolvedSort, resolvedLimit]
  rw [if_neg (by simpa using hsort)]
  rw [if_neg (by simp only [Bool.or_eq_true, decide_eq_true_iff]; omega)]
  rw [if_neg (by simpa using htr)]
  cases net (buildListingRequestURL sub
      (if normalizeSubredditSort sort = "" then "hot" else normalizeSubredditSort sort)
      (if limit = 0 then 20 else limit) timeRange after) <;> rfl

/-- Claim C5: with valid inputs, a forbidden (403), not-found (404) or
gone (410) listing status yields a successful empty response (no error,
no posts, `HasMore = false`); any other non-200 status yields a plain
transient error, never a `ValidationError`. -/
theorem extractSubredditPosts_status_handling (subredditURL sort timeRange : String)
    (limit : Int) (after sub : String)
    (hurl : parseSubredditURL subredditURL = .ok sub)
    (hok : listingValidationOK sort timeRange limit) :
    (∀ status statusText body, (status = 403 ∨ status = 404 ∨ status = 410) →
      ExtractSubredditPosts subredditURL sort timeRange limit after
        (fun _ => .httpResp status statusText body) =
        .ok { posts := [], nextAfter := "", hasMore := false }) ∧
    (∀ status statusText body, status ≠ 200 → status ≠ 403 → status ≠ 404 → status ≠ 410 →
      ExtractSubredditPosts subredditURL sort timeRange limit after
        (fun _ => .httpResp status statusText body) =
        .error (.basic ("unexpected status: " ++ statusText))) ∧
    (∀ status statusText body msg, status ≠ 200 →
      ExtractSubredditPosts subredditURL sort timeRange limit after
        (fun _ => .httpResp status statusText body) ≠
        .error (.validation msg)) := by
  refine ⟨?_, ?_, ?_⟩
  · intro status statusText body hstat
    rw [extractSubredditPosts_eval subredditURL sort timeRange limit after sub _ hurl hok]
    rcases hstat with rfl | rfl | rfl <;> rfl
  · intro status statusText body h200 h403 h404 h410
    rw [extractSubredditPosts_eval subredditURL sort timeRange limit after sub _ hurl hok]
    simp only [listingFetchResult]
    rw [if_pos h200, if_neg (by simp [h403, h404, h410])]
  · intro status statusText body msg h200
    rw [extractSubredditPosts_eval subredditURL sort timeRange limit after sub _ hurl hok]
    simp only [listingFetchResult]
    rw [if_pos h200]
    split <;> simp

/-- Witness for C5: the golang subreddit with a 404 (empty success) and a
500 (plain transient error). -/
theorem extractSubredditPosts_status_handling_witness :
    ExtractSubredditPosts "https://www.reddit.com/r/golang/" "" "" 0 ""
      (fun _ => .httpResp 404 "404 Not Found" (.bodyErr "x")) =
      .ok { posts := [], nextAfter := "", hasMore := false } ∧
    ExtractSubredditPosts "https://www.reddit.com/r/golang/" "" "" 0 ""
      (fun _ => .httpResp 500 "500 Internal Server Error" (.bodyErr "x")) =
      .error (.basic ("unexpected status: " ++ "500 Internal Server Error")) :=
  ⟨(extractSubredditPosts_status_handling "https://www.reddit.com/r/golang/" "" "" 0 ""
      "golang" (by decide) (by decide)).1 404 "404 Not Found" (.bodyErr "x")
      (Or.inr (Or.inl rfl)),
    (extractSubredditPosts_status_handling "https://www.reddit.com/r/golang/" "" "" 0 ""
      "golang" (by decide) (by decide)).2.1 500 "500 Internal Server Error" (.bodyErr "x")
      (by decide) (by decide) (by decide) (by decide)⟩

/-- Claim C8: `limit = 0` behaves identically to `limit = 20` (the default
is substituted before the range validation and before the request URL is
built); after substitution any limit outside [1,100] — including 101 and
-1 — is rejected as a `ValidationError` no matter what the network would
answer; `limit = 100` passes validation. -/
theorem extractSubredditPosts_limit_semantics :
    (∀ subredditURL sort timeRange after net,
      ExtractSubredditPosts subredditURL sort timeRange 0 after net =
      ExtractSubredditPosts subredditURL sort timeRange 20 after net) ∧
    (∀ subredditURL sort timeRange limit after net sub,
      parseSubredditURL subredditURL = .ok sub →
      ¬(stringsTrimSpace sort ≠ "" ∧ normalizeSubredditSort sort = "") →
      (resolvedLimit limit < 1 ∨ resolvedLimit limit > 100) →
      ExtractSubredditPosts subredditURL sort timeRange limit after net =
        .error (.validation "limit must be between 1 and 100")) ∧
    (∀ subredditURL sort timeRange after statusText listing sub,
      parseSubredditURL subredditURL = .ok sub →
      ¬(stringsTrimSpace sort ≠ "" ∧ normalizeSubredditSort sort = "") →
      ¬(timeRange ≠ "" ∧ resolvedSort sort = "top" ∧ isValidTimeRange timeRange = false) →
      ∃ resp, ExtractSubredditPosts subredditURL sort timeRange 100 after
        (fun _ => .httpResp 200 statusText (.decoded listing)) = .ok resp) := by
  refine ⟨?_, ?_, ?_⟩
  · intro subredditURL sort timeRange after net
    rfl
  · intro subredditURL sort timeRange limit after net sub hurl hsort hlim
    simp only [resolvedLimit] at hlim
    simp only [ExtractSubredditPosts, hurl]
    rw [if_neg (by simpa using hsort)]
    rw [if_pos (by simp only [Bool.or_eq_true, decide_eq_true_iff]; omega)]
  · intro subredditURL sort timeRange after statusText listing sub hurl hsort htr
    refine ⟨{ posts := processListingChildren listing.children,
              nextAfter := stringsTrimSpace listing.after,
              hasMore := stringsTrimSpace listing.after ≠ "" }, ?_⟩
    rw [extractSubredditPosts_eval subredditURL sort timeRange 100 after sub _ hurl
      ⟨hsort, by norm_num [resolvedLimit], by norm_num [resolvedLimit], htr⟩]
    rfl

/-- Witness for C8: concrete limits 0/20, 101 and 100 on the golang
subreddit. -/
theorem extractSubredditPosts_limit_semantics_witness :
    ExtractSubredditPosts "https://www.reddit.com/r/golang/" "" "" 0 "" (fun _ => .doErr "x") =
      ExtractSubredditPosts "https://www.reddit.com/r/golang/" "" "" 20 "" (fun _ => .doErr "x") ∧
    ExtractSubredditPosts "https://www.reddit.com/r/golang/" "" "" 101 "" (fun _ => .doErr "x") =
      .error (.validation "limit must be between 1 and 100") ∧
    ExtractSubredditPosts "https://www.reddit.com/r/golang/" "" "" (-1) "" (fun _ => .doErr "x") =
      .error (.validation "limit must be between 1 and 100") ∧
    ∃ resp, ExtractSubredditPosts "https://www.reddit.com/r/golang/" "" "" 100 ""
      (fun _ => .httpResp 200 "200 OK" (.decoded (RedditListingResponse.mk "" []))) = .ok resp :=
  ⟨extractSubredditPosts_limit_semantics.1 "https://www.reddit.com/r/golang/" "" "" ""
      (fun _ => .doErr "x"),
    extractSubredditPosts_limit_semantics.2.1 "https://www.reddit.com/r/golang/" "" "" 101 ""
      (fun _ => .doErr "x") "golang" (by decide) (by decide) (by norm_num [resolvedLimit]),
    extractSubredditPosts_limit_semantics.2.1 "https://www.reddit.com/r/golang/" "" "" (-1) ""
      (fun _ => .doErr "x") "golang" (by decide) (by decide) (by norm_num [resolvedLimit]),
    extractSubredditPosts_limit_semantics.2.2 "https://www.reddit.com/r/golang/" "" "" ""
      "200 OK" (RedditListingResponse.mk "" []) "golang" (by decide) (by decide) (by decide)⟩

/-- Counterexample to C9 as stated: with sort "top" and the supplied
time-range "DAY" — non-empty and not literally one of
{day, week, month, year, all} — the claim demands a ValidationError, but
the extraction succeeds: the code compares the time-range lower-cased and
trimmed. -/
theorem extractSubredditPosts_timeRange_counterexample :
    (("DAY" : String) ≠ "" ∧ ("DAY" : String) ≠ "day" ∧ ("DAY" : String) ≠ "week" ∧
      ("DAY" : String) ≠ "month" ∧ ("DAY" : String) ≠ "year" ∧ ("DAY" : String) ≠ "all" ∧
      resolvedSort "top" = "top") ∧
    ExtractSubredditPosts "https://www.reddit.com/r/golang/" "top" "DAY" 5 ""
      (fun _ => .httpResp 200 "200 OK" (.decoded (RedditListingResponse.mk "" []))) =
      .ok { posts := [], nextAfter := "", hasMore := false } := by
  constructor
  · decide
  · rfl

/-- Claim C9 (amended): with URL, sort and limit valid,
`ExtractSubredditPosts` returns the "invalid time_range" ValidationError
if and only if the sort resolves to "top", the time-range is non-empty
and — after lower-casing and trimming — it is not one of
{day, week, month, year, all} (`isValidTimeRange`); for every other
resolved sort the check is skipped, so any time-range produces no
error. -/
theorem extractSubredditPosts_timeRange_validation (subredditURL sort timeRange : String)
    (limit : Int) (after sub : String)
    (hurl : parseSubredditURL subredditURL = .ok sub)
    (hsort : ¬(stringsTrimSpace sort ≠ "" ∧ normalizeSubredditSort sort = ""))
    (hlim : 1 ≤ resolvedLimit limit ∧ resolvedLimit limit ≤ 100) :
    ((timeRange ≠ "" ∧ resolvedSort sort = "top" ∧ isValidTimeRange timeRange = false) →
      ∀ net, ExtractSubredditPosts subredditURL sort timeRange limit after net =
        .error (.validation "invalid time_range")) ∧
    (¬(timeRange ≠ "" ∧ resolvedSort sort = "top" ∧ isValidTimeRange timeRange = false) →
      ∀ statusText listing, ∃ resp,
        ExtractSubredditPosts subredditURL sort timeRange limit after
          (fun _ => .httpResp 200 statusText (.decoded listing)) = .ok resp) ∧
    (resolvedSort sort ≠ "top" →
      ∀ statusText listing, ∃ resp,
        ExtractSubredditPosts subredditURL sort timeRange limit after
          (fun _ => .httpResp 200 statusText (.decoded listing)) = .ok resp) := by
  have skip : ¬(timeRange ≠ "" ∧ resolvedSort sort = "top" ∧ isValidTimeRange timeRange = false) →
      ∀ statusText listing, ∃ resp,
        ExtractSubredditPosts subredditURL sort timeRange limit after
          (fun _ => .httpResp 200 statusText (.decoded listing)) = .ok resp := by
    intro hcond statusText listing
    refine ⟨{ posts := processListingChildren listing.children,
              nextAfter := stringsTrimSpace listing.after,
              hasMore := stringsTrimSpace listing.after ≠ "" }, ?_⟩
    rw [extractSubredditPosts_eval subredditURL sort timeRange limit after sub _ hurl
      ⟨hsort, hlim.1, hlim.2, hcond⟩]
    rfl
  refine ⟨?_, skip, fun hnot => skip (fun hc => hnot hc.2.1)⟩
  intro hc net
  simp only [resolvedSort] at hc
  simp only [ExtractSubredditPosts, hurl]
  rw [if_neg (by simpa using hsort)]
  rw [if_neg (by
    simp only [resolvedLimit] at hlim
    simp only [Bool.or_eq_true, decide_eq_true_iff]
    omega)]
  rw [if_pos (by
    simp only [Bool.and_eq_true, decide_eq_true_iff, Bool.not_eq_true']
    exact ⟨⟨hc.1, hc.2.1⟩, hc.2.2⟩)]

/-- Witness for the amended C9: "invalid_time" with sort "top" is
rejected; the same time-range with sort "new" is ignored. -/
theorem extractSubredditPosts_timeRange_validation_witness :
    ExtractSubredditPosts "https://www.reddit.com/r/golang/" "top" "invalid_time" 5 ""
      (fun _ => .doErr "x") = .error (.validation "invalid time_range") ∧
    ∃ resp, ExtractSubredditPosts "https://www.reddit.com/r/golang/" "new" "invalid_time" 5 ""
      (fun _ => .httpResp 200 "200 OK" (.decoded (RedditListingResponse.mk "" []))) = .ok resp :=
  ⟨(extractSubredditPosts_timeRange_validation "https://www.reddit.com/r/golang/" "top"
      "invalid_time" 5 "" "golang" (by decide) (by decide) (by decide)).1
      (by refine ⟨by decide, by decide, by decide⟩) (fun _ => .doErr "x"),
    (extractSubredditPosts_timeRange_validation "https://www.reddit.com/r/golang/" "new"
      "invalid_time" 5 "" "golang" (by decide) (by decide) (by decide)).2.2
      (by decide) "200 OK" (RedditListingResponse.mk "" [])⟩

/-- A listing post record with every field at its zero value. -/
def zeroPostData : RedditListingPostData :=
  { title := "", author := "", score := 0, numComments := 0, selftext := "", permalink := "",
    url := "", isSelf := false, postHint := "", isGallery := false, isVideo := false,
    removedByCategory := "", preview := [], mediaMetadata := none }

/-- A listing child whose removal marker is whitespace only. -/
def blankMarkerChild : RedditListingChild :=
  { kind := "t3",
    data := { zeroPostData with title := "hello", removedByCategory := " ",
                                permalink := "/r/golang/comments/abc/x/" } }

/-- Counterexample to C6 as stated: this post-kind entry has a non-empty
removal marker (a single space), yet it appears in the returned post
sequence — the code trims the marker before testing it. -/
theorem processListingChildren_removed_counterexample :
    blankMarkerChild.data.removedByCategory ≠ "" ∧ blankMarkerChild.kind = "t3" ∧
    processListingChildren [blankMarkerChild] =
      [{ title := "hello", imageURLs := [],
         postLink := "https://www.reddit.com/r/golang/comments/abc/x/",
         score := 0, comments := 0, externalLink := "" }] := by
  refine ⟨by decide, rfl, by decide⟩

/-- Claim C6 (amended): for every listing entry of the post kind, if its
removal marker is non-empty after trimming surrounding whitespace, or its
title or body text — lower-cased and trimmed — equals "[deleted]" or
"[removed]", then the entry contributes nothing to the returned post
sequence (deleting it from the children leaves the output unchanged), and
its removal does not cause an error for the extraction as a whole. -/
theorem processListingChildren_filters_removed :
    (∀ pre child rest,
      child.kind = "t3" →
      (stringsTrimSpace child.data.removedByCategory ≠ "" ∨
       stringsTrimSpace (stringsToLower child.data.title) = "[deleted]" ∨
       stringsTrimSpace (stringsToLower child.data.title) = "[removed]" ∨
       stringsTrimSpace (stringsToLower child.data.selftext) = "[deleted]" ∨
       stringsTrimSpace (stringsToLower child.data.selftext) = "[removed]") →
      processListingChildren (pre ++ child :: rest) = processListingChildren (pre ++ rest)) ∧
    (∀ subredditURL sort timeRange limit after sub statusText listing,
      parseSubredditURL subredditURL = .ok sub →
      listingValidationOK sort timeRange limit →
      ∃ resp, ExtractSubredditPosts subredditURL sort timeRange limit after
        (fun _ => .httpResp 200 statusText (.decoded listing)) = .ok resp) := by
  constructor
  · intro pre child rest hkind hcond
    have hrem : isRemovedPost child.data.title child.data.selftext
        child.data.removedByCategory = true := by
      simp only [isRemovedPost]
      split
      · rfl
      · rename_i hrc
        rcases hcond with h | h | h | h | h
        · exact absurd h hrc
        all_goals simp [h]
    induction pre with
    | nil =>
      simp only [List.nil_append]
      simp only [processListingChildren]
      rw [if_neg (by simp [hkind]), if_pos hrem]
    | cons p pre ih =>
      simp only [List.cons_append, processListingChildren, List.append_eq]
      rw [ih]
  · intro subredditURL sort timeRange limit after sub statusText listing hurl hok
    refine ⟨{ posts := processListingChildren listing.children,
              nextAfter := stringsTrimSpace listing.after,
              hasMore := stringsTrimSpace listing.after ≠ "" }, ?_⟩
    rw [extractSubredditPosts_eval subredditURL sort timeRange limit after sub _ hurl hok]
    rfl

/-- A listing child whose title is the deleted sentinel up to case and
surrounding whitespace. -/
def deletedTitleChild : RedditListingChild :=
  { kind := "t3",
    data := { zeroPostData with title := " [DELETED] ",
                                permalink := "/r/golang/comments/abc/x/" } }

/-- Witness for the amended C6: an entry whose title is the deleted
sentinel up to case and whitespace is dropped. -/
theorem processListingChildren_filters_removed_witness :
    processListingChildren [deletedTitleChild] = processListingChildren [] :=
  processListingChildren_filters_removed.1 [] deletedTitleChild [] rfl
    (by right; left; decide)

/-- Claim C10: a video entry yields no images regardless of its other
fields; a non-video gallery entry none of whose media-metadata entries has
status "valid", type "Image" (case-insensitive) and a non-empty URL does
not produce an empty list outright but behaves exactly as a non-gallery
entry — falling through to the direct image-host / image-hinted URL and
then to the preview list with ampersand-entity decoding. -/
theorem collectPostImages_fallthrough :
    (∀ data, data.isVideo = true → collectPostImages data = []) ∧
    (∀ data mm, data.isVideo = false → data.isGallery = true →
      data.mediaMetadata = some mm →
      (∀ entry ∈ mm, ¬(entry.2.status = "valid" ∧
        stringsEqualFold entry.2.e "Image" = true ∧ entry.2.u ≠ "")) →
      collectPostImages data = collectPostImages { data with isGallery := false }) ∧
    (∀ data mm, data.isVideo = false → data.isGallery = true →
      data.mediaMetadata = some mm →
      (∀ entry ∈ mm, ¬(entry.2.status = "valid" ∧
        stringsEqualFold entry.2.e "Image" = true ∧ entry.2.u ≠ "")) →
      (data.postHint = "image" ∨ isRedditImageURL data.url = true) →
      stringsTrimSpace data.url ≠ "" →
      collectPostImages data = [data.url]) ∧
    (∀ data mm, data.isVideo = false → data.isGallery = true →
      data.mediaMetadata = some mm →
      (∀ entry ∈ mm, ¬(entry.2.status = "valid" ∧
        stringsEqualFold entry.2.e "Image" = true ∧ entry.2.u ≠ "")) →
      ¬((data.postHint = "image" ∨ isRedditImageURL data.url = true) ∧
        stringsTrimSpace data.url ≠ "") →
      data.preview ≠ [] →
      collectPostImages data =
        data.preview.filterMap fun img =>
          if img.sourceURL = "" then none else some (replaceAmp img.sourceURL)) := by
  have hgal : ∀ (mm : List (String × MediaMeta)),
      (∀ entry ∈ mm, ¬(entry.2.status = "valid" ∧
        stringsEqualFold entry.2.e "Image" = true ∧ entry.2.u ≠ "")) →
      galleryImages mm = [] := by
    intro mm hnone
    simp only [galleryImages]
    rw [List.filterMap_eq_nil_iff]
    intro entry hmem
    rw [if_neg]
    intro hc
    have hc2 := by simpa using hc
    exact hnone entry hmem ⟨hc2.1.1, hc2.1.2, hc2.2⟩
  refine ⟨?_, ?_, ?_, ?_⟩
  · intro data hvid
    simp [collectPostImages, hvid]
  · rintro ⟨t, au, sc, nc, st, pl, u, isf, ph, ig, iv, rc, pv, mmv⟩ mm hvid hg hmm hnone
    simp only at hvid hg hmm
    subst hvid hg hmm
    simp [collectPostImages, hgal mm hnone]
  · rintro ⟨t, au, sc, nc, st, pl, u, isf, ph, ig, iv, rc, pv, mmv⟩ mm hvid hg hmm hnone
      hdirect hurl
    simp only at hvid hg hmm hdirect hurl
    subst hvid hg hmm
    rcases hdirect with h | h <;>
      simp [collectPostImages, hgal mm hnone, h, hurl]
  · rintro ⟨t, au, sc, nc, st, pl, u, isf, ph, ig, iv, rc, pv, mmv⟩ mm hvid hg hmm hnone
      hdirect hprev
    simp only at hvid hg hmm hdirect hprev
    subst hvid hg hmm
    have hb : ¬(ph = "image" ∨ isRedditImageURL u = true) ∨ ¬(stringsTrimSpace u ≠ "") := by
      by_contra hc
      push_neg at hc
      exact hdirect ⟨hc.1, hc.2⟩
    rcases hb with hb | hb
    · have h1 : ph ≠ "image" := fun h => hb (Or.inl h)
      have h2 : isRedditImageURL u = false := by
        cases hiu : isRedditImageURL u
        · rfl
        · exact absurd (Or.inr hiu) hb
      simp [collectPostImages, hgal mm hnone, h1, h2, hprev]
    · have h3 : stringsTrimSpace u = "" := by
        by_contra hc
        exact hb hc
      simp [collectPostImages, hgal mm hnone, h3, hprev]

/-- A non-video gallery entry whose only metadata entry is invalid and
that carries a preview image with an encoded ampersand. -/
def invalidGalleryData : RedditListingPostData :=
  { zeroPostData with
      isGallery := true,
      mediaMetadata := some [("a", { status := "failed", e := "Image", m := "", u := "x" })],
      preview := [{ sourceURL := "https://preview.redd.it/p.png?a=1&amp;b=2" }] }

/-- Witness for C10: the invalid gallery falls through to the preview
list (entity-decoded) instead of returning no images, while the same data
marked as a video yields none. -/
theorem collectPostImages_fallthrough_witness :
    collectPostImages invalidGalleryData =
      invalidGalleryData.preview.filterMap
        (fun img => if img.sourceURL = "" then none else some (replaceAmp img.sourceURL)) ∧
    collectPostImages { invalidGalleryData with isVideo := true } = [] :=
  ⟨collectPostImages_fallthrough.2.2.2 invalidGalleryData
      [("a", { status := "failed", e := "Image", m := "", u := "x" })]
      rfl rfl rfl (by decide) (by decide) (by decide),
    collectPostImages_fallthrough.1 { invalidGalleryData with isVideo := true } rfl⟩

/-- Counterexample to C2 as stated: "https://example.com/x" passes URL
well-formedness but its path does not match the post pattern; the API
strategy fails with the plain error "invalid reddit post url" — which is
not the ValidationError kind — and post extraction is not a hard failure:
`ExtractRedditPost` falls back to markup scraping and here returns an
all-empty post with no error at all (a silent default). -/
theorem extractRedditPost_invalid_url_counterexample :
    parseRedditURL "https://example.com/x" = none ∧
    extractRedditPostFromAPI "https://example.com/x" (.doErr "unused") =
      .error (.basic "invalid reddit post url") ∧
    GoError.basic "invalid reddit post url" ≠ GoError.validation "invalid reddit post url" ∧
    ExtractRedditPost "https://example.com/x" (.doErr "unused") (.scraped emptyRedditPost) =
      (.ok emptyRedditPost, true) := by
  refine ⟨by decide, rfl, by decide, rfl⟩

/-- Claim C2 (amended): listing-path URL parsing/validation failures are
reported as the ValidationError kind; post-path URL validation failures
are plain error values ("url is required"/"invalid url"), and a URL whose
path does not match the /r/<name>/comments/<id>/ pattern makes the API
strategy fail with the plain error "invalid reddit post url" — a hard
failure of that strategy, after which `ExtractRedditPost` falls back to
the markup strategy instead of failing the extraction. -/
theorem urlValidation_error_kinds :
    (∀ url msg, parseSubredditURL url = .error msg →
      ∀ sort timeRange limit after net,
        ExtractSubredditPosts url sort timeRange limit after net =
          .error (.validation msg)) ∧
    (∀ url e, ValidateRedditURL url = some e →
      e = .basic "url is required" ∨ e = .basic "invalid url") ∧
    (∀ url fetch, parseRedditURL url = none →
      extractRedditPostFromAPI url fetch = .error (.basic "invalid reddit post url")) ∧
    (∀ url fetch html, ValidateRedditURL url = none → parseRedditURL url = none →
      ExtractRedditPost url fetch html = (extractRedditPostFromHTML html, true)) := by
  refine ⟨?_, ?_, ?_, ?_⟩
  · intro url msg h sort timeRange limit after net
    simp only [ExtractSubredditPosts, h]
  · intro url e h
    unfold ValidateRedditURL at h
    split at h
    · left
      injection h with h2
      exact h2.symm
    · split at h
      · right
        injection h with h2
        exact h2.symm
      · split at h
        · right
          injection h with h2
          exact h2.symm
        · exact Option.noConfusion h
  · intro url fetch h
    simp only [extractRedditPostFromAPI, h]
  · intro url fetch html hvalid hpat
    have hapi : extractRedditPostFromAPI url fetch = .error (.basic "invalid reddit post url") := by
      simp only [extractRedditPostFromAPI, hpat]
    unfold ExtractRedditPost
    rw [hvalid, hapi]
    cases extractRedditPostFromHTML html <;> rfl

/-- Witness for the amended C2: an empty listing URL is a ValidationError;
the no-pattern post URL falls back to the (here successful) markup
strategy. -/
theorem urlValidation_error_kinds_witness :
    ExtractSubredditPosts "" "" "" 5 "" (fun _ => .doErr "x") =
      .error (.validation "url is required") ∧
    ExtractRedditPost "https://example.com/x" (.doErr "unused")
      (.scraped (titledRedditPost "T")) =
      (extractRedditPostFromHTML (.scraped (titledRedditPost "T")), true) :=
  ⟨urlValidation_error_kinds.1 "" "url is required" rfl "" "" 5 "" (fun _ => .doErr "x"),
    urlValidation_error_kinds.2.2.2 "https://example.com/x" (.doErr "unused")
      (.scraped (titledRedditPost "T")) (by decide) (by decide)⟩

theorem pcl_nil : parseCommentListings [] = [] := by
  simp [parseCommentListings]

theorem pcl_cons_none (r : JVal) (rest : List JVal) (h : decodeCommentNode r = none) :
    parseCommentListings (r :: rest) = parseCommentListings rest := by
  rw [parseCommentListings]
  split
  · rfl
  · rename_i node heq
    rw [h] at heq
    exact Option.noConfusion heq

theorem pcl_cons_skip (r : JVal) (rest : List JVal) (node : CommentNode)
    (h : decodeCommentNode r = some node) (hk : node.kind ≠ "t1") :
    parseCommentListings (r :: rest) = parseCommentListings rest := by
  rw [parseCommentListings]
  split
  · rfl
  · rename_i node2 heq
    rw [h] at heq
    injection heq with h2
    subst h2
    simp [hk]

theorem pcl_cons_t1 (r : JVal) (rest : List JVal) (node : CommentNode)
    (h : decodeCommentNode r = some node) (hk : node.kind = "t1") :
    parseCommentListings (r :: rest) =
      Comment.mk node.body (parseReplies node.replies) :: parseCommentListings rest := by
  rw [parseCommentListings]
  split
  · rename_i heq
    rw [h] at heq
    exact Option.noConfusion heq
  · rename_i node2 heq
    rw [h] at heq
    injection heq with h2
    subst h2
    simp [hk]

theorem parseReplies_none : parseReplies none = [] := by
  rw [parseReplies]

theorem parseReplies_sentinel : parseReplies (some (.str "")) = [] := by
  rw [parseReplies]

theorem parseReplies_listing (rv : JVal) (listing : ListingNode) (c : JVal) (cs : List JVal)
    (hne : rv ≠ .str "") (hlst : decodeListing rv = some listing)
    (hk : listing.kind = "Listing") (hch : listing.children = c :: cs) :
    parseReplies (some rv) = parseCommentListings (c :: cs) := by
  rw [parseReplies]
  · split
    · rename_i heq
      rw [hlst] at heq
      exact Option.noConfusion heq
    · rename_i listing2 heq
      rw [hlst] at heq
      injection heq with h2
      subst h2
      rw [if_pos hk]
      split
      · rename_i heq2
        rw [hch] at heq2
        exact List.noConfusion heq2
      · rename_i c2 cs2 heq2
        rw [hch] at heq2
        injection heq2 with e1 e2
        subst e1
        subst e2
        rfl
  · exact fun h2 => hne h2

/-- A raw "t1" comment record with the given body and optional replies
value. -/
def mkT1 (body : String) (replies : Option JVal) : JVal :=
  .obj [("kind", .str "t1"),
        ("data", .obj ([("body", .str body)] ++
          (match replies with | none => [] | some r => [("replies", r)])))]

/-- A raw replies listing holding the given children. -/
def mkListing (children : List JVal) : JVal :=
  .obj [("kind", .str "Listing"), ("data", .obj [("children", .arr children)])]

/-- Claim C7: `parseCommentListings` yields one `Comment` per raw record
whose kind tag is "t1" and that decodes successfully, in input order: a
record whose replies field is absent or the empty-string sentinel yields
an empty replies sequence; a record whose replies field is a nested
"Listing" with two "t1" children yields exactly two replies, each parsed
by the same recursive rule; a record that fails to decode or carries a
different kind tag is dropped without affecting its siblings. -/
theorem parseCommentListings_spec :
    (∀ r rest node, decodeCommentNode r = some node → node.kind = "t1" →
      (node.replies = none ∨ node.replies = some (.str "")) →
      parseCommentListings (r :: rest) =
        Comment.mk node.body [] :: parseCommentListings rest) ∧
    (∀ r rest node rv listing c1 c2 n1 n2,
      decodeCommentNode r = some node → node.kind = "t1" →
      node.replies = some rv → rv ≠ .str "" →
      decodeListing rv = some listing → listing.kind = "Listing" →
      listing.children = [c1, c2] →
      decodeCommentNode c1 = some n1 → n1.kind = "t1" →
      decodeCommentNode c2 = some n2 → n2.kind = "t1" →
      parseCommentListings (r :: rest) =
        Comment.mk node.body (parseCommentListings [c1, c2]) :: parseCommentListings rest ∧
      parseCommentListings [c1, c2] =
        [Comment.mk n1.body (parseReplies n1.replies),
         Comment.mk n2.body (parseReplies n2.replies)] ∧
      (parseCommentListings [c1, c2]).length = 2) ∧
    (∀ r rest, decodeCommentNode r = none →
      parseCommentListings (r :: rest) = parseCommentListings rest) ∧
    (∀ r rest node, decodeCommentNode r = some node → node.kind ≠ "t1" →
      parseCommentListings (r :: rest) = parseCommentListings rest) := by
  refine ⟨?_, ?_, pcl_cons_none, pcl_cons_skip⟩
  · intro r rest node h hk hrep
    rw [pcl_cons_t1 r rest node h hk]
    rcases hrep with hrep | hrep <;> rw [hrep]
    · rw [parseReplies_none]
    · rw [parseReplies_sentinel]
  · intro r rest node rv listing c1 c2 n1 n2 h hk hrep hne hlst hlk hch hc1 hk1 hc2 hk2
    have h2 : parseCommentListings [c1, c2] =
        [Comment.mk n1.body (parseReplies n1.replies),
         Comment.mk n2.body (parseReplies n2.replies)] := by
      rw [pcl_cons_t1 c1 [c2] n1 hc1 hk1, pcl_cons_t1 c2 [] n2 hc2 hk2, pcl_nil]
    refine ⟨?_, h2, by rw [h2]; rfl⟩
    rw [pcl_cons_t1 r rest node h hk, hrep,
      parseReplies_listing rv listing c1 [c2] hne hlst hlk hch]

/-- Witness for C7: the sentinel, the two-child nested listing, and the
two dropped-record shapes, on concrete payloads. -/
theorem parseCommentListings_spec_witness :
    parseCommentListings [mkT1 "a" (some (.str ""))] = [Comment.mk "a" []] ∧
    parseCommentListings [mkT1 "p" (some (mkListing [mkT1 "x" none, mkT1 "y" none]))] =
      [Comment.mk "p" (parseCommentListings [mkT1 "x" none, mkT1 "y" none])] ∧
    (parseCommentListings [mkT1 "x" none, mkT1 "y" none]).length = 2 ∧
    parseCommentListings [JVal.num 3, mkT1 "a" none] = parseCommentListings [mkT1 "a" none] ∧
    parseCommentListings [mkT1 "z" none, mkT1 "a" none] ≠
      parseCommentListings [mkT1 "a" none] ∧
    parseCommentListings [JVal.obj [("kind", .str "t5")], mkT1 "a" none] =
      parseCommentListings [mkT1 "a" none] := by
  have spec := parseCommentListings_spec
  refine ⟨?_, ?_, ?_, ?_, ?_, ?_⟩
  · rw [spec.1 (mkT1 "a" (some (.str ""))) [] ⟨"t1", "a", some (.str "")⟩ rfl rfl
      (Or.inr rfl), pcl_nil]
  · rw [(spec.2.1 (mkT1 "p" (some (mkListing [mkT1 "x" none, mkT1 "y" none]))) []
      ⟨"t1", "p", some (mkListing [mkT1 "x" none, mkT1 "y" none])⟩
      (mkListing [mkT1 "x" none, mkT1 "y" none])
      ⟨"Listing", [mkT1 "x" none, mkT1 "y" none]⟩
      (mkT1 "x" none) (mkT1 "y" none) ⟨"t1", "x", none⟩ ⟨"t1", "y", none⟩
      rfl rfl rfl (by intro hcontra; exact JVal.noConfusion hcontra) rfl rfl rfl
      rfl rfl rfl rfl).1, pcl_nil]
  · exact (spec.2.1 (mkT1 "p" (some (mkListing [mkT1 "x" none, mkT1 "y" none]))) []
      ⟨"t1", "p", some (mkListing [mkT1 "x" none, mkT1 "y" none])⟩
      (mkListing [mkT1 "x" none, mkT1 "y" none])
      ⟨"Listing", [mkT1 "x" none, mkT1 "y" none]⟩
      (mkT1 "x" none) (mkT1 "y" none) ⟨"t1", "x", none⟩ ⟨"t1", "y", none⟩
      rfl rfl rfl (by intro hcontra; exact JVal.noConfusion hcontra) rfl rfl rfl
      rfl rfl rfl rfl).2.2
  · exact spec.2.2.1 (JVal.num 3) [mkT1 "a" none] rfl
  · rw [spec.1 (mkT1 "z" none) [mkT1 "a" none] ⟨"t1", "z", none⟩ rfl rfl (Or.inl rfl)]
    intro hcontra
    have hlen := congrArg List.length hcontra
    rw [spec.1 (mkT1 "a" none) [] ⟨"t1", "a", none⟩ rfl rfl (Or.inl rfl), pcl_nil] at hlen
    simp at hlen
  · exact spec.2.2.2 (JVal.obj [("kind", .str "t5")]) [mkT1 "a" none] ⟨"t5", "", none⟩
      rfl (by decide)

theorem containsSub_iff_infix (sub l : List Char) :
    containsSub sub l = true ↔ sub <:+: l := by
  induction l with
  | nil =>
    simp [containsSub, List.isEmpty_iff]
  | cons x rest ih =>
    simp only [containsSub, Bool.or_eq_true, List.isPrefixOf_iff_prefix, ih,
      List.infix_cons_iff]

theorem infix_dropWhile_of_no_p (p : Char → Bool) (sub l : List Char)
    (hsub : ∀ c ∈ sub, p c = false) (hne : sub ≠ []) (h : sub <:+: l) :
    sub <:+: l.dropWhile p := by
  induction l with
  | nil => simpa using h
  | cons x rest ih =>
    by_cases hp : p x = true
    · rw [List.dropWhile_cons_of_pos hp]
      rcases List.infix_cons_iff.mp h with hpre | hinf
      · obtain ⟨s0, stail, rfl⟩ : ∃ s0 stail, sub = s0 :: stail := by
          cases sub with
          | nil => exact absurd rfl hne
          | cons a b => exact ⟨a, b, rfl⟩
        obtain ⟨rfl, -⟩ := (List.cons_prefix_cons).mp hpre
        exact absurd hp (by simp [hsub s0 (List.mem_cons_self s0 stail)])
      · exact ih hinf
    · rw [List.dropWhile_cons_of_neg hp]
      exact h

theorem infix_trimChars_of_no_p (p : Char → Bool) (sub l : List Char)
    (hsub : ∀ c ∈ sub, p c = false) (hne : sub ≠ []) (h : sub <:+: l) :
    sub <:+: trimChars p l := by
  unfold trimChars
  unfold List.rdropWhile
  have h1 : sub <:+: l.dropWhile p := infix_dropWhile_of_no_p p sub l hsub hne h
  have h2 : sub.reverse <:+: (l.dropWhile p).reverse := List.reverse_infix.mpr h1
  have h3 : sub.reverse <:+: ((l.dropWhile p).reverse).dropWhile p := by
    refine infix_dropWhile_of_no_p p sub.reverse _ ?_ (by simpa using hne) h2
    intro c hc
    exact hsub c (List.mem_reverse.mp hc)
  have h4 := List.reverse_infix.mpr h3
  simpa using h4

theorem stringsContains_trimSpace (s : String) (h : stringsContains s ".." = true) :
    stringsContains (stringsTrimSpace s) ".." = true := by
  rw [stringsContains, containsSub_iff_infix] at h ⊢
  exact infix_trimChars_of_no_p isGoSpace _ s.data (by decide) (by decide) h

theorem splitOnChar_ne_nil (c : Char) (l : List Char) : splitOnChar c l ≠ [] := by
  cases l with
  | nil => simp [splitOnChar]
  | cons x xs =>
    simp only [splitOnChar]
    split
    · simp
    · split <;> simp

theorem splitOnChar_cons (c x : Char) (xs : List Char) :
    splitOnChar c (x :: xs) =
      match splitOnChar c xs with
      | [] => [[]]
      | chunk :: rest => if x = c then [] :: chunk :: rest else (x :: chunk) :: rest := rfl

theorem splitOnChar_getLast_ne_nil (c : Char) (l : List Char)
    (hne : l ≠ []) (hlast : l.getLast? ≠ some c) :
    (splitOnChar c l).getLast? ≠ some [] := by
  induction l with
  | nil => exact absurd rfl hne
  | cons x xs ih =>
    cases xs with
    | nil =>
      have hx : x ≠ c := by simpa using hlast
      simp [splitOnChar, hx]
    | cons y ys =>
      have hlast2 : (y :: ys).getLast? ≠ some c := by
        rwa [List.getLast?_cons_cons] at hlast
      have ihr := ih (by simp) hlast2
      rw [splitOnChar_cons]
      cases hsp : splitOnChar c (y :: ys) with
      | nil => exact absurd hsp (splitOnChar_ne_nil c (y :: ys))
      | cons chunk rest =>
        rw [hsp] at ihr
        change (if x = c then [] :: chunk :: rest else (x :: chunk) :: rest).getLast? ≠ some []
        split
        · simpa [List.getLast?_cons_cons] using ihr
        · cases rest with
          | nil => simp
          | cons r2 rs => simpa [List.getLast?_cons_cons] using ihr

theorem trimChars_getLast_not (p : Char → Bool) (l : List Char) (x : Char)
    (hx : (trimChars p l).getLast? = some x) : p x = false := by
  have hne : trimChars p l ≠ [] := by
    intro hc
    rw [hc] at hx
    simp at hx
  unfold trimChars at hx hne
  have h2 := List.rdropWhile_last_not (p := p) (l := l.dropWhile p) hne
  rw [List.getLast?_eq_getLast _ hne] at hx
  injection hx with hx2
  rw [hx2] at h2
  simpa using h2

theorem stringsSplit_trimSlash_getLast (s : String)
    (h : (stringsTrimSlash s).data ≠ []) :
    (stringsSplit (stringsTrimSlash s) '/').getLast? ≠ some "" := by
  rw [stringsSplit, List.getLast?_map]
  intro hc
  cases hg : (splitOnChar '/' (stringsTrimSlash s).data).getLast? with
  | none => rw [hg] at hc; simp at hc
  | some chunk =>
    rw [hg] at hc
    simp only [Option.map_some'] at hc
    injection hc with hc2
    have hchunk : chunk = [] := by
      have := congrArg String.data hc2
      simpa using this
    subst hchunk
    have hlastc : (stringsTrimSlash s).data.getLast? ≠ some '/' := by
      intro hlc
      have hpl := trimChars_getLast_not (fun c => c == '/') s.data '/' hlc
      simp at hpl
    exact splitOnChar_getLast_ne_nil '/' _ h hlastc hg

theorem count_nonempty_ge_three (a b : String) (l2 : List String)
    (ha : a ≠ "") (hb : b ≠ "") (hne : l2 ≠ [])
    (hl : (a :: b :: l2).getLast? ≠ some "") :
    3 ≤ ((a :: b :: l2).filter (fun seg => seg ≠ "")).length := by
  obtain ⟨x, hx⟩ : ∃ x, l2.getLast? = some x := by
    cases hg : l2.getLast? with
    | none => exact absurd (List.getLast?_eq_none_iff.mp hg) hne
    | some x => exact ⟨x, rfl⟩
  have hxne : x ≠ "" := by
    intro hc
    subst hc
    apply hl
    cases l2 with
    | nil => exact absurd rfl hne
    | cons z zs =>
      rw [List.getLast?_cons_cons, List.getLast?_cons_cons]
      exact hx
  obtain ⟨hx2, rfl⟩ := List.mem_getLast?_eq_getLast hx
  have hmem : l2.getLast hx2 ∈ l2 := List.getLast_mem hx2
  rw [List.filter_cons_of_pos (by simpa using ha), List.filter_cons_of_pos (by simpa using hb)]
  simp only [List.length_cons]
  have hmemf : l2.getLast hx2 ∈ l2.filter (fun seg => seg ≠ "") :=
    List.mem_filter.mpr ⟨hmem, by simpa using hxne⟩
  have hlen : 0 < (l2.filter (fun seg => seg ≠ "")).length :=
    List.length_pos.mpr (List.ne_nil_of_mem hmemf)
  omega

theorem isPrefixOf_append_self (l m : List Char) : l.isPrefixOf (l ++ m) = true := by
  induction l with
  | nil => simp [List.isPrefixOf]
  | cons a l ih => simp [List.isPrefixOf, ih]

theorem strStartsWith_append (s t : String) : strStartsWith (s ++ t) s = true := by
  rw [strStartsWith, String.data_append]
  exact isPrefixOf_append_self s.data t.data

/-- Counterexample to C1 as stated: an absolute-URL permalink is passed
through verbatim, so this input contains "..", lacks the "/r/" prefix,
and yet produces a non-empty link that does not start with the canonical
domain. -/
theorem buildRedditPostLink_counterexample :
    stringsContains "http://example.com/../x" ".." = true ∧
    strStartsWith (stringsTrimSpace "http://example.com/../x") "/r/" = false ∧
    buildRedditPostLink "http://example.com/../x" = "http://example.com/../x" ∧
    buildRedditPostLink "http://example.com/../x" ≠ "" ∧
    strStartsWith (buildRedditPostLink "http://example.com/../x")
      "https://www.reddit.com" = false := by
  exact ⟨by decide, by decide, by decide, by decide, by decide⟩

/-- Claim C1 (amended): for every permalink whose trimmed form is not
already an absolute URL (absolute URLs are returned verbatim),
`buildRedditPostLink` returns either the empty string or a string
starting with "https://www.reddit.com"; and it returns the empty string
whenever the permalink is empty or whitespace-only, contains the
parent-directory traversal token "..", lacks the "/r/" forum-marker
prefix (after trimming), or its trimmed form has fewer than three
non-empty path segments. -/
theorem buildRedditPostLink_spec (p : String)
    (habs : strStartsWith (stringsTrimSpace p) "http://" = false ∧
            strStartsWith (stringsTrimSpace p) "https://" = false) :
    (buildRedditPostLink p = "" ∨
      strStartsWith (buildRedditPostLink p) "https://www.reddit.com" = true) ∧
    (stringsTrimSpace p = "" → buildRedditPostLink p = "") ∧
    (stringsContains p ".." = true → buildRedditPostLink p = "") ∧
    (strStartsWith (stringsTrimSpace p) "/r/" = false → buildRedditPostLink p = "") ∧
    (((stringsSplit (stringsTrimSlash (stringsTrimSpace p)) '/').filter
        (fun seg => seg ≠ "")).length < 3 → buildRedditPostLink p = "") := by
  obtain ⟨habs1, habs2⟩ := habs
  refine ⟨?_, ?_, ?_, ?_, ?_⟩
  · simp only [buildRedditPostLink]
    split_ifs with h1 h2 h3 h4
    · exact Or.inl rfl
    · rw [habs1, habs2] at h2
      simp at h2
    · exact Or.inl rfl
    · exact Or.inl rfl
    · cases hsp : stringsSplit (stringsTrimSlash (stringsTrimSpace p)) '/' with
      | nil => exact Or.inl rfl
      | cons s0 tl =>
        cases tl with
        | nil => exact Or.inl rfl
        | cons s1 tl2 =>
          cases tl2 with
          | nil => exact Or.inl rfl
          | cons s2 tl3 =>
            show (if s0 ≠ "r" then "" else if s1 = "" then ""
                else "https://www.reddit.com" ++ stringsTrimSpace p) = "" ∨
              strStartsWith (if s0 ≠ "r" then "" else if s1 = "" then ""
                else "https://www.reddit.com" ++ stringsTrimSpace p)
                "https://www.reddit.com" = true
            by_cases hs0 : s0 ≠ "r"
            · rw [if_pos hs0]
              exact Or.inl rfl
            · rw [if_neg hs0]
              by_cases hs1 : s1 = ""
              · rw [if_pos hs1]
                exact Or.inl rfl
              · rw [if_neg hs1]
                exact Or.inr (strStartsWith_append "https://www.reddit.com" (stringsTrimSpace p))
  · intro hb
    simp [buildRedditPostLink, hb]
  · intro hc
    have hct := stringsContains_trimSpace p hc
    simp only [buildRedditPostLink]
    split_ifs with h1 h2 h3 h4
    · rfl
    · rw [habs1, habs2] at h2
      simp at h2
    · rfl
    · rfl
  · intro hd
    simp only [buildRedditPostLink]
    split_ifs with h1 h2 h3
    · rfl
    · rw [habs1, habs2] at h2
      simp at h2
    · rfl
    · rfl
    · exact absurd (by rw [hd]; rfl) h3
  · intro he
    simp only [buildRedditPostLink]
    split_ifs with h1 h2 h3 h4
    · rfl
    · rw [habs1, habs2] at h2
      simp at h2
    · rfl
    · rfl
    · cases hsp : stringsSplit (stringsTrimSlash (stringsTrimSpace p)) '/' with
      | nil => rfl
      | cons s0 tl =>
        cases tl with
        | nil => rfl
        | cons s1 tl2 =>
          cases tl2 with
          | nil => rfl
          | cons s2 tl3 =>
            change (if s0 ≠ "r" then "" else if s1 = "" then ""
              else "https://www.reddit.com" ++ stringsTrimSpace p) = ""
            by_cases hs0 : s0 ≠ "r"
            · rw [if_pos hs0]
            · rw [if_neg hs0]
              by_cases hs1 : s1 = ""
              · rw [if_pos hs1]
              · rw [if_neg hs1]
                exfalso
                have hs0eq : s0 = "r" := by
                  by_contra hcon
                  exact hs0 hcon
                have hdata : (stringsTrimSlash (stringsTrimSpace p)).data ≠ [] := by
                  intro hnil
                  rw [stringsSplit, hnil] at hsp
                  simp [splitOnChar] at hsp
                have hlast := stringsSplit_trimSlash_getLast (stringsTrimSpace p) hdata
                rw [hsp] at hlast
                have hcount := count_nonempty_ge_three s0 s1 (s2 :: tl3)
                  (by rw [hs0eq]; intro hcon; exact absurd hcon (by decide))
                  hs1 (by simp) hlast
                rw [hsp] at he
                omega

/-- Witness for the amended C1: a traversal permalink and a too-short
permalink both map to the empty string. -/
theorem buildRedditPostLink_spec_witness :
    buildRedditPostLink "/r/golang/../x" = "" ∧ buildRedditPostLink "/r/" = "" :=
  ⟨(buildRedditPostLink_spec "/r/golang/../x" ⟨by decide, by decide⟩).2.2.1 (by decide),
    (buildRedditPostLink_spec "/r/" ⟨by decide, by decide⟩).2.2.2.2 (by decide)⟩
